import Mathlib

/-!
Shallow embedding of `src/packages/@sanity/mutator/src/document/BufferedDocument.js`.

The engine (`BufferedDocument`) buffers local mutations on top of an
authoritative snapshot owned by the external tracker (`Document`), batches
them into `Commit`s, drives a single-flight committer loop with retry, and
rebases the optimistic snapshot (`LOCAL`) whenever the tracker's snapshot
(`EDGE`) changes.  JavaScript `null` (the deleted sentinel) is `none`;
snapshots are values of `Option SDoc`; deep structural comparison
(`lodash.isEqual`) is decidable equality on `SDoc`.  Side effects on the
caller and on the external collaborators (callback invocations, staging,
transport, timers) are recorded as an ordered event list returned next to
the new state.
-/

namespace BufferedDoc

/-- A document snapshot: the `_rev` revision marker plus the content body
(modelled as a list of field/value pairs).  `lodash.isEqual` on such objects
is decidable structural equality. -/
structure SDoc where
  rev : String
  body : List (String × Int)
deriving DecidableEq, Repr

/-- A snapshot reference: `none` is JavaScript `null`, the deleted sentinel. -/
abbrev Snapshot := Option SDoc

/-- Modelled from the spec: the external Mutation algebra exposes
`apply(state) -> state` as a pure function; a mutation is identified with
that function.  (`Mutation.js` is not part of the given source.) -/
structure Mutation where
  applyTo : Snapshot → Snapshot

/-- Source method `mutation.apply(doc)` of the external algebra. -/
def Mutation.apply (m : Mutation) (doc : Snapshot) : Snapshot :=
  m.applyTo doc

/-- Modelled from the spec: `Mutation.applyAll(doc, mutations)` applies the
mutations in order, left to right. -/
def Mutation.applyAll (doc : Snapshot) (ms : List Mutation) : Snapshot :=
  ms.foldl (fun d m => m.applyTo d) doc

/-- Source `class Commit`: an ordered batch of buffered mutations plus the retry
counter `tries` (starts at 0, incremented on each staging failure). -/
structure Commit where
  mutations : List Mutation
  tries : Nat

/-- Source method `Commit#apply(doc)`: replay the commit's mutations in order onto `doc`. -/
def Commit.apply (c : Commit) (doc : Snapshot) : Snapshot :=
  Mutation.applyAll doc c.mutations

/-- The message object passed to `onMutation`: the mutation, the document
snapshot it produced, and whether it originated remotely. -/
structure MutMsg where
  mutation : Mutation
  document : Snapshot
  remote : Bool

/-- Observable effects of an engine step, in emission order:
caller notifications (`onMutation` / `onRebase` / `onDelete`), calls into the
tracker (`document.stage`, responder success/failure), the transport
invocation (`commitHandler`), the retry timer (`setTimeout` delay), and the
synchronously thrown configuration error. -/
inductive Ev where
  | mutationNote (msg : MutMsg)
  | rebaseNote (doc : Snapshot)
  | deleteNote (doc : SDoc)
  | stagedNote
  | transportNote
  | respondSuccess
  | respondFailure
  | retryScheduled (delay : Nat)
  | configError

/-- The engine state.  `EDGE` is the tracker's current snapshot
(`this.document.EDGE`, read-only to the engine, updated by remote arrivals
and `reset`); `LOCAL` is the optimistic snapshot; `commits` the FIFO commit
queue; `mutations` the uncommitted buffer; `committerRunning` the
single-flight flag; `inflight` the commit currently handed to the transport
(shifted off the queue by the committer and awaiting its callback);
`commitHandler` records whether a transport handler was configured. -/
structure BufferedDocument where
  EDGE : Snapshot
  LOCAL : Snapshot
  commits : List Commit
  mutations : List Mutation
  committerRunning : Bool
  inflight : Option Commit
  commitHandler : Bool

/-- Source method `handleDocumentDeleted()`: fire `onDelete` with the last optimistic
snapshot if it is non-null, then clear the commit queue and the buffer. -/
def handleDocumentDeleted (s : BufferedDocument) : BufferedDocument × List Ev :=
  let evs := match s.LOCAL with
    | some d => [Ev.deleteNote d]
    | none => []
  ({ s with commits := [], mutations := [] }, evs)

/-- The from-scratch recomputation performed by `rebase()`: start from
`EDGE`, apply every queued commit in order, then every buffered mutation. -/
def recomputedLOCAL (s : BufferedDocument) : Snapshot :=
  Mutation.applyAll (s.commits.foldl (fun d c => c.apply d) s.EDGE) s.mutations

/-- Source method `rebase()`: run deletion handling when `EDGE` is null; recompute `LOCAL`
from scratch; copy the old snapshot's `_rev` over from the new one before
comparing (the source writes `oldLocal._rev = this.LOCAL._rev` in place);
emit `onRebase` with the new snapshot iff the deep comparison finds a
difference. -/
def rebase (s : BufferedDocument) : BufferedDocument × List Ev :=
  let p := if s.EDGE = none then handleDocumentDeleted s else (s, [])
  let s0 := p.1
  let oldLocal := s0.LOCAL
  let newLocal := recomputedLOCAL s0
  let oldLocal2 := match oldLocal, newLocal with
    | some o, some n => some { o with rev := n.rev }
    | _, _ => oldLocal
  let s1 := { s0 with LOCAL := newLocal }
  (s1, p.2 ++ (if newLocal ≠ oldLocal2 then [Ev.rebaseNote newLocal] else []))

/-- Source method `add(mutation)`: push onto the buffer, apply to `LOCAL`, and fire
`onMutation` (local origin, `remote: false`) iff the new snapshot differs
from the old one (a no-op application emits nothing). -/
def add (s : BufferedDocument) (m : Mutation) : BufferedDocument × List Ev :=
  let oldLocal := s.LOCAL
  let newLocal := m.applyTo s.LOCAL
  let s2 := { s with mutations := s.mutations ++ [m], LOCAL := newLocal }
  (s2, if newLocal ≠ oldLocal then [Ev.mutationNote ⟨m, newLocal, false⟩] else [])

/-- Source method `_cycleCommitter()` up to its first suspension point: if the queue is
empty, clear the running flag and stop; otherwise set the running flag,
shift the head commit, squash and stage it (`document.stage`), and invoke
the transport handler, leaving the commit in flight awaiting its
success/failure callback. -/
def cycleCommitter (s : BufferedDocument) : BufferedDocument × List Ev :=
  match s.commits with
  | [] => ({ s with committerRunning := false }, [])
  | c :: rest =>
    ({ s with committerRunning := true, commits := rest, inflight := some c },
     [Ev.stagedNote, Ev.transportNote])

/-- Source method `performCommits()`: throw a configuration error if no `commitHandler`
was configured; no-op if the committer loop is already running; otherwise
start a committer cycle. -/
def performCommits (s : BufferedDocument) : BufferedDocument × List Ev :=
  if ! s.commitHandler then (s, [Ev.configError])
  else if s.committerRunning then (s, [])
  else cycleCommitter s

/-- The atomic buffer-to-queue move inside `commit()`: collect the staged
mutations into a fresh `Commit` (with `tries = 0`) appended at the queue
tail, and clear the buffer. -/
def commitMove (s : BufferedDocument) : BufferedDocument :=
  { s with commits := s.commits ++ [⟨s.mutations, 0⟩], mutations := [] }

/-- Source method `commit()`: return immediately when the buffer is empty; otherwise move
the buffer into a new queued `Commit` and invoke `performCommits()`. -/
def commit (s : BufferedDocument) : BufferedDocument × List Ev :=
  if s.mutations.isEmpty then (s, [])
  else performCommits (commitMove s)

/-- The transport's `success` callback for the in-flight commit: inform the
tracker's responder of success, then keep the committer running
(`_cycleCommitter()` again). -/
def commitSuccess (s : BufferedDocument) : BufferedDocument × List Ev :=
  match s.inflight with
  | none => (s, [])
  | some _ =>
    let p := cycleCommitter { s with inflight := none }
    (p.1, Ev.respondSuccess :: p.2)

/-- The transport's `failure` callback for the in-flight commit: increment
its `tries`; requeue it at the front of the queue only when `LOCAL` is not
null (the document still exists); inform the tracker's responder of
failure; schedule the next committer cycle after the fixed 1000 ms delay. -/
def commitFailure (s : BufferedDocument) : BufferedDocument × List Ev :=
  match s.inflight with
  | none => (s, [])
  | some c =>
    let c2 := { c with tries := c.tries + 1 }
    let s1 := if s.LOCAL ≠ none then { s with commits := c2 :: s.commits } else s
    ({ s1 with inflight := none }, [Ev.respondFailure, Ev.retryScheduled 1000])

/-- Source method `handleDocMutation(msg)`: if nothing is locally pending, adopt the
tracker's `EDGE` as `LOCAL` and forward the notification verbatim; if the
tracker's snapshot is null, run deletion handling; always finish by running
`rebase()`. -/
def handleDocMutation (s : BufferedDocument) (msg : MutMsg) : BufferedDocument × List Ev :=
  let p1 :=
    if s.commits.isEmpty && s.mutations.isEmpty then
      ({ s with LOCAL := s.EDGE }, [Ev.mutationNote msg])
    else (s, ([] : List Ev))
  let p2 :=
    if p1.1.EDGE = none then
      let q := handleDocumentDeleted p1.1
      (q.1, p1.2 ++ q.2)
    else p1
  let p3 := rebase p2.1
  (p3.1, p2.2 ++ p3.2)

/-- Source method `handleDocRebase(msg)`: the tracker's rebase-required notification just
runs `rebase()`. -/
def handleDocRebase (s : BufferedDocument) : BufferedDocument × List Ev :=
  rebase s

/-- Modelled from the spec: the tracker's `reset` replaces
its authoritative snapshot wholesale (`Document.js` is not part of the given
source); the engine then immediately runs `rebase()`. -/
def reset (s : BufferedDocument) (doc : Snapshot) : BufferedDocument × List Ev :=
  rebase { s with EDGE := doc }

/-- The snapshots carried by the `onDelete` notifications in an event list. -/
def deleteEvs (evs : List Ev) : List SDoc :=
  evs.filterMap fun e => match e with
    | Ev.deleteNote d => some d
    | _ => none

/-- The snapshots carried by the `onRebase` notifications in an event list. -/
def rebaseEvs (evs : List Ev) : List Snapshot :=
  evs.filterMap fun e => match e with
    | Ev.rebaseNote d => some d
    | _ => none

/-- Whether a configuration error was raised. -/
def hasConfigError (evs : List Ev) : Bool :=
  evs.any fun e => match e with
    | Ev.configError => true
    | _ => false

/-- Structural difference with the revision marker disregarded: two null
snapshots never differ, a null and a non-null snapshot always differ, and
two non-null snapshots differ iff their bodies differ. -/
def differsModRev (old new : Snapshot) : Bool :=
  match old, new with
  | none, none => false
  | some o, some n => decide (o.body ≠ n.body)
  | _, _ => true

/-- The derivation invariant: the optimistic snapshot equals the
authoritative snapshot with every queued commit applied in queue order and
then every buffered mutation applied in insertion order. -/
def localConsistent (s : BufferedDocument) : Prop :=
  s.LOCAL = recomputedLOCAL s

/-- A sequence of `add` calls, returning the final state. -/
def addList (s : BufferedDocument) (ms : List Mutation) : BufferedDocument :=
  ms.foldl (fun st m => (add st m).1) s

end BufferedDoc

namespace BufferedDoc

/-! ### Helper lemmas -/

theorem applyAll_append (d : Snapshot) (ms ns : List Mutation) :
    Mutation.applyAll d (ms ++ ns) = Mutation.applyAll (Mutation.applyAll d ms) ns := by
  simp [Mutation.applyAll, List.foldl_append]

theorem recomputedLOCAL_set_LOCAL (s : BufferedDocument) (x : Snapshot) :
    recomputedLOCAL { s with LOCAL := x } = recomputedLOCAL s := rfl

theorem rebase_localConsistent (s : BufferedDocument) :
    localConsistent (rebase s).1 := by
  unfold rebase localConsistent
  split <;> rfl

theorem cycleCommitter_frame (t : BufferedDocument) :
    (cycleCommitter t).1.LOCAL = t.LOCAL ∧ (cycleCommitter t).1.mutations = t.mutations ∧
      (cycleCommitter t).1.EDGE = t.EDGE := by
  cases h : t.commits <;> simp [cycleCommitter, h]

theorem performCommits_frame (t : BufferedDocument) :
    (performCommits t).1.LOCAL = t.LOCAL ∧ (performCommits t).1.mutations = t.mutations ∧
      (performCommits t).1.EDGE = t.EDGE := by
  unfold performCommits
  cases hc : t.commitHandler <;> cases hr : t.committerRunning <;>
    simp [hc, hr, cycleCommitter_frame]

/-! ### Concrete fixtures used by witnesses and counterexamples -/

/-- The identity mutation (a no-op operation). -/
def mId : Mutation := ⟨fun d => d⟩

/-- A mutation that sets the field `count` to `v` and the revision to `r`. -/
def mSet (v : Int) (r : String) : Mutation :=
  ⟨fun d => match d with
    | some _ => some ⟨r, [("count", v)]⟩
    | none => none⟩

/-- A concrete snapshot. -/
def dEx : SDoc := ⟨"r1", [("count", 1)]⟩

/-- A second concrete snapshot with a different body. -/
def dEx2 : SDoc := ⟨"r2", [("count", 2)]⟩

/-- A concrete remote-arrival message. -/
def msgEx : MutMsg := ⟨mId, none, true⟩

end BufferedDoc

namespace BufferedDoc

/-! ### C5: `add` -/

/-- C5: `add(mutation)` appends the mutation to the buffer, the optimistic
snapshot becomes `apply(previousOptimisticSnapshot, mutation)`, and a
local-mutation notification (the mutation, the new snapshot, `remote =
false`) is emitted iff the new snapshot differs from the previous one; a
no-op application emits nothing.  The commit queue is untouched. -/
theorem add_spec (s : BufferedDocument) (m : Mutation) :
    (add s m).1.mutations = s.mutations ++ [m] ∧
    (add s m).1.LOCAL = m.apply s.LOCAL ∧
    (add s m).1.commits = s.commits ∧
    (add s m).2 = (if m.apply s.LOCAL ≠ s.LOCAL
      then [Ev.mutationNote ⟨m, m.apply s.LOCAL, false⟩] else []) := by
  simp [add, Mutation.apply]

/-! ### C8: `commit()` on an empty buffer -/

/-- C8: `commit()` on an empty mutation buffer is a no-op: the state is
unchanged (no new `Commit` is created, the queue is unchanged) and no
notification or other effect is produced. -/
theorem commit_empty_noop (s : BufferedDocument) (h : s.mutations = []) :
    commit s = (s, []) := by
  simp [commit, h]

/-- A quiescent concrete engine state. -/
def sQuiet : BufferedDocument :=
  { EDGE := some dEx, LOCAL := some dEx, commits := [], mutations := [],
    committerRunning := false, inflight := none, commitHandler := true }

/-- Witness for C8 at a concrete state. -/
theorem commit_empty_noop_witness :
    sQuiet.mutations = [] ∧ commit sQuiet = (sQuiet, []) :=
  ⟨rfl, commit_empty_noop sQuiet rfl⟩

end BufferedDoc

namespace BufferedDoc

/-! ### C9: `commit()` on a non-empty buffer -/

/-- C9: `commit()` on a non-empty buffer atomically appends exactly one new
`Commit` holding the buffer's former mutations (in order, `tries = 0`) at
the tail of the commit queue and clears the buffer, then invokes the
committer (`performCommits`); afterwards the buffer is still empty and the
optimistic snapshot is unchanged. -/
theorem commit_nonempty_spec (s : BufferedDocument) (h : s.mutations ≠ []) :
    (commitMove s).commits = s.commits ++ [⟨s.mutations, 0⟩] ∧
    (commitMove s).mutations = [] ∧
    (commitMove s).LOCAL = s.LOCAL ∧
    commit s = performCommits (commitMove s) ∧
    (commit s).1.LOCAL = s.LOCAL ∧
    (commit s).1.mutations = [] := by
  have hcommit : commit s = performCommits (commitMove s) := by
    simp [commit, h]
  refine ⟨rfl, rfl, rfl, hcommit, ?_, ?_⟩
  · rw [hcommit]
    exact (performCommits_frame (commitMove s)).1
  · rw [hcommit]
    exact (performCommits_frame (commitMove s)).2.1

/-- A concrete state with one buffered mutation. -/
def sBuf : BufferedDocument :=
  { EDGE := some dEx, LOCAL := some dEx2, commits := [], mutations := [mSet 2 "r2"],
    committerRunning := false, inflight := none, commitHandler := true }

/-- Witness for C9 at a concrete state. -/
theorem commit_nonempty_spec_witness :
    sBuf.mutations ≠ [] ∧
    (commitMove sBuf).commits = [⟨[mSet 2 "r2"], 0⟩] ∧
    (commit sBuf).1.LOCAL = some dEx2 ∧
    (commit sBuf).1.mutations = [] := by
  refine ⟨by simp [sBuf], ?_, ?_, ?_⟩
  · exact (commit_nonempty_spec sBuf (by simp [sBuf])).1
  · exact (commit_nonempty_spec sBuf (by simp [sBuf])).2.2.2.2.1
  · exact (commit_nonempty_spec sBuf (by simp [sBuf])).2.2.2.2.2

/-! ### C7: `performCommits()` -/

/-- C7: `performCommits()` raises the configuration error synchronously iff
no commit transport handler is configured; when a handler is configured and
a committer loop is already running, the call is a no-op (state unchanged,
no effects), preserving the single-flight discipline. -/
theorem performCommits_spec (s : BufferedDocument) :
    (hasConfigError (performCommits s).2 = true ↔ s.commitHandler = false) ∧
    (s.commitHandler = false → performCommits s = (s, [Ev.configError])) ∧
    (s.commitHandler = true → s.committerRunning = true → performCommits s = (s, [])) := by
  cases hc : s.commitHandler <;> cases hr : s.committerRunning <;>
    cases hq : s.commits <;>
      simp [performCommits, cycleCommitter, hasConfigError, hc, hr, hq]

/-- A concrete state with no commit handler configured. -/
def sNoHandler : BufferedDocument :=
  { EDGE := some dEx, LOCAL := some dEx, commits := [], mutations := [],
    committerRunning := false, inflight := none, commitHandler := false }

/-- A concrete state with a handler configured and the committer running. -/
def sRunning : BufferedDocument :=
  { EDGE := some dEx, LOCAL := some dEx, commits := [⟨[mId], 0⟩], mutations := [],
    committerRunning := true, inflight := none, commitHandler := true }

/-- Witness for C7 at concrete states: the error fires without a handler,
and the call is a no-op while a loop is running. -/
theorem performCommits_spec_witness :
    performCommits sNoHandler = (sNoHandler, [Ev.configError]) ∧
    performCommits sRunning = (sRunning, []) ∧
    hasConfigError (performCommits sRunning).2 = false := by
  exact ⟨(performCommits_spec sNoHandler).2.1 rfl,
         (performCommits_spec sRunning).2.2 rfl rfl, by decide⟩

end BufferedDoc

namespace BufferedDoc

/-! ### C4: staging failure handling -/

/-- C4: when the transport reports failure for the in-flight commit, its
retry counter is incremented and it is requeued at the front of the commit
queue iff the document still exists (`LOCAL` is not the deleted sentinel;
otherwise it is dropped); the tracker's responder is informed of the
failure and the next committer iteration is scheduled after the fixed
1000 ms delay.  Consequently the next committer cycle attempts the failed
commit again before any commit queued after it. -/
theorem commitFailure_spec (s : BufferedDocument) (c : Commit)
    (h : s.inflight = some c) :
    (commitFailure s).2 = [Ev.respondFailure, Ev.retryScheduled 1000] ∧
    (s.LOCAL ≠ none →
      (commitFailure s).1.commits = { c with tries := c.tries + 1 } :: s.commits) ∧
    (s.LOCAL = none → (commitFailure s).1.commits = s.commits) ∧
    (s.LOCAL ≠ none →
      (cycleCommitter (commitFailure s).1).1.inflight
        = some { c with tries := c.tries + 1 }) := by
  by_cases hL : s.LOCAL = none <;>
    simp [commitFailure, h, hL, cycleCommitter]

/-- A concrete in-flight commit (commit A, queued before B). -/
def cA : Commit := ⟨[mSet 2 "r2"], 0⟩

/-- A concrete queued commit (commit B, queued after A). -/
def cB : Commit := ⟨[mSet 3 "r3"], 0⟩

/-- A concrete state where commit A is in flight and commit B waits. -/
def sInflight : BufferedDocument :=
  { EDGE := some dEx, LOCAL := some dEx2, commits := [cB], mutations := [],
    committerRunning := true, inflight := some cA, commitHandler := true }

/-- Witness for C4: at the concrete failing state, A is requeued in front of
B with its counter at 1, the retry is scheduled at 1000, and the next cycle
attempts A again. -/
theorem commitFailure_spec_witness :
    sInflight.inflight = some cA ∧
    (commitFailure sInflight).2 = [Ev.respondFailure, Ev.retryScheduled 1000] ∧
    (commitFailure sInflight).1.commits = [{ cA with tries := 1 }, cB] ∧
    (cycleCommitter (commitFailure sInflight).1).1.inflight
      = some { cA with tries := 1 } := by
  have h := commitFailure_spec sInflight cA rfl
  exact ⟨rfl, h.1, h.2.1 (by decide), h.2.2.2 (by decide)⟩

end BufferedDoc

namespace BufferedDoc

/-! ### C3: rebase notification and idempotence -/

theorem ne_oldLocal2_iff (old new : Snapshot) :
    (new ≠ (match old, new with
            | some o, some n => some { o with rev := n.rev }
            | _, _ => old)) ↔ differsModRev old new = true := by
  cases old with
  | none => cases new <;> simp [differsModRev]
  | some o =>
    cases new with
    | none => simp [differsModRev]
    | some n =>
      cases o with
      | mk orev obody =>
        cases n with
        | mk nrev nbody =>
          simp [differsModRev, SDoc.mk.injEq]
          exact ne_comm

/-- C3: one run of `rebase()` emits the rebase notification, carrying the
recomputed optimistic snapshot, iff that snapshot differs structurally from
the previous one with the revision marker disregarded (the `_rev` copied
over before the deep comparison); and a second run of `rebase()` with no
intervening state change emits nothing at all. -/
theorem rebase_notification_spec (s : BufferedDocument) :
    (rebaseEvs (rebase s).2 =
      if differsModRev s.LOCAL (rebase s).1.LOCAL
        then [(rebase s).1.LOCAL] else []) ∧
    (rebase (rebase s).1).2 = [] := by
  constructor
  · by_cases hE : s.EDGE = none
    · simp only [rebase, hE, if_true]
      cases hL : s.LOCAL <;>
        simp [handleDocumentDeleted, recomputedLOCAL, Mutation.applyAll, hE, hL,
              differsModRev, rebaseEvs]
    · have hiff := ne_oldLocal2_iff s.LOCAL (recomputedLOCAL s)
      by_cases hd : differsModRev s.LOCAL (recomputedLOCAL s) = true
      · have hne := hiff.mpr hd
        simp [rebase, hE, rebaseEvs, hd, hne]
      · have hne := hiff.not.mpr hd
        simp [rebase, hE, rebaseEvs, hd, hne]
  · by_cases hE : s.EDGE = none
    · simp [rebase, handleDocumentDeleted, recomputedLOCAL, Mutation.applyAll, hE]
    · cases hL : recomputedLOCAL s with
      | none => simp [rebase, hE, recomputedLOCAL_set_LOCAL, hL, handleDocumentDeleted]
      | some n => simp [rebase, hE, recomputedLOCAL_set_LOCAL, hL, handleDocumentDeleted]

end BufferedDoc

namespace BufferedDoc

/-! ### C2: the optimistic snapshot is derived from queue and buffer -/

theorem applyAll_singleton (d : Snapshot) (m : Mutation) :
    Mutation.applyAll d [m] = m.applyTo d := rfl

theorem add_localConsistent (s : BufferedDocument) (m : Mutation)
    (h : localConsistent s) : localConsistent (add s m).1 := by
  unfold localConsistent recomputedLOCAL at h ⊢
  simp only [add, applyAll_append, applyAll_singleton]
  rw [h]

theorem commitMove_localConsistent (s : BufferedDocument)
    (h : localConsistent s) : localConsistent (commitMove s) := by
  unfold localConsistent recomputedLOCAL at h ⊢
  simp only [commitMove, List.foldl_append, List.foldl_cons, List.foldl_nil]
  simp only [Mutation.applyAll, List.foldl_nil]
  rw [h]
  rfl

theorem addList_props (ms : List Mutation) :
    ∀ s : BufferedDocument, localConsistent s →
      localConsistent (addList s ms) ∧ (addList s ms).commits = s.commits ∧
        (addList s ms).EDGE = s.EDGE := by
  induction ms with
  | nil => intro s h; exact ⟨h, rfl, rfl⟩
  | cons m ms ih =>
    intro s h
    have h1 := add_localConsistent s m h
    have h2 := ih (add s m).1 h1
    exact ⟨h2.1, h2.2.1, h2.2.2⟩

/-- C2: the optimistic snapshot always equals the authoritative snapshot
with every queued commit applied in queue order and then every buffered
mutation applied in insertion order (`localConsistent`): the invariant is
preserved by `add` and by the buffer-to-queue move of `commit()`, and is
(re-)established unconditionally by `rebase()`, by every remote-mutation
arrival and by `reset`; in particular, for every sequence of `add` calls
with no intervening `commit` from a consistent state with an empty queue,
the optimistic snapshot equals `applyAll(authoritative snapshot,
bufferedMutations)`. -/
theorem optimistic_snapshot_derivation (s : BufferedDocument) :
    (∀ m, localConsistent s → localConsistent (add s m).1) ∧
    (localConsistent s → localConsistent (commitMove s)) ∧
    localConsistent (rebase s).1 ∧
    (∀ msg, localConsistent (handleDocMutation s msg).1) ∧
    (∀ d, localConsistent (reset s d).1) ∧
    (∀ ms, localConsistent s → s.commits = [] →
      (addList s ms).LOCAL
        = Mutation.applyAll s.EDGE (addList s ms).mutations) := by
  refine ⟨fun m h => add_localConsistent s m h,
          fun h => commitMove_localConsistent s h,
          rebase_localConsistent _,
          fun msg => rebase_localConsistent _,
          fun d => rebase_localConsistent _,
          fun ms h hc => ?_⟩
  have hp := addList_props ms s h
  have hL := hp.1
  unfold localConsistent recomputedLOCAL at hL
  rw [hL, hp.2.1, hc, hp.2.2]
  rfl

/-- Witness for C2 at a concrete state and a concrete `add` sequence. -/
theorem optimistic_snapshot_derivation_witness :
    localConsistent sQuiet ∧ sQuiet.commits = [] ∧
    localConsistent (add sQuiet (mSet 2 "r2")).1 ∧
    (addList sQuiet [mSet 2 "r2", mSet 3 "r3"]).LOCAL
      = Mutation.applyAll sQuiet.EDGE
          (addList sQuiet [mSet 2 "r2", mSet 3 "r3"]).mutations := by
  have hq : localConsistent sQuiet := rfl
  exact ⟨hq, rfl, (optimistic_snapshot_derivation sQuiet).1 (mSet 2 "r2") hq,
         (optimistic_snapshot_derivation sQuiet).2.2.2.2.2
           [mSet 2 "r2", mSet 3 "r3"] hq rfl⟩

end BufferedDoc

namespace BufferedDoc

/-! ### C6: remote mutation arrival -/

/-- C6: on a remote-mutation arrival, when the commit queue and the buffer
are both empty the engine adopts the tracker's snapshot as the optimistic
snapshot and forwards the notification verbatim before rebasing (and when
the document still exists the whole step amounts to exactly that adoption
and forward, the final rebase emitting nothing); and in every case the step
finishes by running the rebase algorithm on the intermediate state. -/
theorem handleDocMutation_spec (s : BufferedDocument) (msg : MutMsg) :
    ((s.commits.isEmpty && s.mutations.isEmpty) = true →
      handleDocMutation s msg
        = ((rebase { s with LOCAL := s.EDGE }).1,
           Ev.mutationNote msg :: (rebase { s with LOCAL := s.EDGE }).2)) ∧
    ((s.commits.isEmpty && s.mutations.isEmpty) = true → s.EDGE ≠ none →
      (handleDocMutation s msg).1.LOCAL = s.EDGE ∧
      (handleDocMutation s msg).2 = [Ev.mutationNote msg]) ∧
    ((s.commits.isEmpty && s.mutations.isEmpty) = false →
      handleDocMutation s msg
        = ((rebase (if s.EDGE = none then (handleDocumentDeleted s).1 else s)).1,
           (if s.EDGE = none then (handleDocumentDeleted s).2 else [])
             ++ (rebase (if s.EDGE = none then (handleDocumentDeleted s).1 else s)).2)) := by
  refine ⟨?_, ?_, ?_⟩
  · intro h
    rw [Bool.and_eq_true, List.isEmpty_iff, List.isEmpty_iff] at h
    obtain ⟨h1, h2⟩ := h
    cases s with
    | mk E L cs ms run infl ch =>
      simp only at h1 h2
      subst h1; subst h2
      by_cases hE : E = none
      · subst hE
        simp [handleDocMutation, rebase, handleDocumentDeleted, recomputedLOCAL,
              Mutation.applyAll]
      · simp [handleDocMutation, rebase, handleDocumentDeleted, hE]
  · intro h hE
    rw [Bool.and_eq_true, List.isEmpty_iff, List.isEmpty_iff] at h
    obtain ⟨h1, h2⟩ := h
    cases s with
    | mk E L cs ms run infl ch =>
      simp only at h1 h2 hE
      subst h1; subst h2
      cases E with
      | none => exact absurd rfl hE
      | some e =>
        constructor
        · simp [handleDocMutation, rebase, handleDocumentDeleted, recomputedLOCAL,
                Mutation.applyAll]
        · simp [handleDocMutation, rebase, handleDocumentDeleted, recomputedLOCAL,
                Mutation.applyAll]
  · intro h
    by_cases hE : s.EDGE = none
    · simp [handleDocMutation, h, hE, handleDocumentDeleted]
    · simp [handleDocMutation, h, hE]

/-- A concrete remote-arrival message carrying the tracker's new snapshot. -/
def msgW : MutMsg := ⟨mId, some dEx2, true⟩

/-- A concrete quiescent state whose tracker snapshot just advanced. -/
def sFastW : BufferedDocument :=
  { EDGE := some dEx2, LOCAL := some dEx, commits := [], mutations := [],
    committerRunning := false, inflight := none, commitHandler := true }

/-- Witness for C6: at a concrete quiescent state, the arrival adopts the
tracker's snapshot and forwards the message as the only notification. -/
theorem handleDocMutation_spec_witness :
    (sFastW.commits.isEmpty && sFastW.mutations.isEmpty) = true ∧
    sFastW.EDGE ≠ none ∧
    (handleDocMutation sFastW msgW).1.LOCAL = some dEx2 ∧
    (handleDocMutation sFastW msgW).2 = [Ev.mutationNote msgW] := by
  have h := (handleDocMutation_spec sFastW msgW).2.1 rfl (by decide)
  exact ⟨rfl, by decide, h.1, h.2⟩

end BufferedDoc

namespace BufferedDoc

/-! ### C1: deletion notification -/

/-- A concrete state with pending local work (one buffered mutation) whose
tracker snapshot has just become the deleted sentinel. -/
def sDelPending : BufferedDocument :=
  { EDGE := none, LOCAL := some dEx, commits := [], mutations := [mId],
    committerRunning := false, inflight := none, commitHandler := true }

/-- C1 counterexample: at a concrete deletion event (the authoritative
snapshot became the deleted sentinel while the previous optimistic snapshot
was `some dEx` and one local mutation was pending), processing the arrival
emits the deletion notification twice, not exactly once. -/
theorem deletion_notification_counterexample :
    sDelPending.LOCAL = some dEx ∧ sDelPending.EDGE = none ∧
    deleteEvs (handleDocMutation sDelPending msgEx).2 = [dEx, dEx] ∧
    (deleteEvs (handleDocMutation sDelPending msgEx).2).length ≠ 1 := by
  refine ⟨rfl, rfl, ?_, ?_⟩ <;> decide

/-- C1 amended: after the authoritative snapshot becomes the deleted
sentinel and the engine processes it, the commit queue and the mutation
buffer are both empty, and every deletion notification fired carries the
last non-null optimistic snapshot; but the emission count is: zero when the
deletion arrives as a remote mutation with nothing locally pending (the
fast path nulls the optimistic snapshot first), exactly two when it arrives
as a remote mutation while local work is pending (deletion handling runs
once directly and once more inside the final rebase), and exactly one when
the deletion is processed by the rebase path alone. -/
theorem deletion_notification_amended :
    (∀ (s : BufferedDocument) (msg : MutMsg), s.EDGE = none →
      (handleDocMutation s msg).1.commits = [] ∧
      (handleDocMutation s msg).1.mutations = [] ∧
      deleteEvs (handleDocMutation s msg).2 =
        (if (s.commits.isEmpty && s.mutations.isEmpty) = true then []
         else match s.LOCAL with
              | some d => [d, d]
              | none => [])) ∧
    (∀ s : BufferedDocument, s.EDGE = none →
      (handleDocRebase s).1.commits = [] ∧
      (handleDocRebase s).1.mutations = [] ∧
      deleteEvs (handleDocRebase s).2 =
        (match s.LOCAL with
         | some d => [d]
         | none => [])) := by
  constructor
  · intro s msg hE
    by_cases hp : (s.commits.isEmpty && s.mutations.isEmpty) = true
    · cases hL : s.LOCAL <;>
        simp [handleDocMutation, rebase, handleDocumentDeleted, deleteEvs,
              recomputedLOCAL, Mutation.applyAll, hE, hp, hL]
    · rw [Bool.not_eq_true] at hp
      cases hL : s.LOCAL <;>
        simp [handleDocMutation, rebase, handleDocumentDeleted, deleteEvs,
              recomputedLOCAL, Mutation.applyAll, hE, hp, hL]
  · intro s hE
    cases hL : s.LOCAL <;>
      simp [handleDocRebase, rebase, handleDocumentDeleted, deleteEvs,
            recomputedLOCAL, Mutation.applyAll, hE, hL]

/-- Witness for the amended C1 at the concrete deleted state: the purge
leaves queue and buffer empty, and the rebase path emits exactly one
deletion notification carrying the last non-null optimistic snapshot. -/
theorem deletion_notification_amended_witness :
    sDelPending.EDGE = none ∧
    (handleDocMutation sDelPending msgEx).1.commits = [] ∧
    (handleDocMutation sDelPending msgEx).1.mutations = [] ∧
    deleteEvs (handleDocRebase sDelPending).2 = [dEx] := by
  have h1 := deletion_notification_amended.1 sDelPending msgEx rfl
  have h2 := deletion_notification_amended.2 sDelPending rfl
  exact ⟨rfl, h1.1, h1.2.1, by rw [h2.2.2]; decide⟩

end BufferedDoc

namespace BufferedDoc

/-! ### C10: in-place `_rev` overwrite of the delivered snapshot

JavaScript snapshots are heap objects handled by reference, and
`rebase()` executes `oldLocal._rev = this.LOCAL._rev` on the previous
optimistic-snapshot object itself.  To state this aliasing effect the
relevant operations are re-embedded over an explicit object heap: snapshot
objects live in a store and `this.LOCAL` is an address into it. -/

/-- Heap-level notifications: each carries the heap address of the snapshot
object handed to the caller (`none`/`mutationNull` for the null snapshot). -/
inductive EvH where
  | mutationAddr (a : Nat)
  | mutationNull
  | rebaseAddr (a : Option Nat)
  | deleteAddr (a : Nat)

/-- A heap-level engine state: snapshot objects live in `store`, and
`this.LOCAL` is the reference `localAddr` into it. -/
structure HeapState where
  store : List SDoc
  EDGEh : Snapshot
  localAddr : Option Nat
  commitsH : List Commit
  mutationsH : List Mutation

/-- Dereference `this.LOCAL`. -/
def HeapState.readLocal (h : HeapState) : Snapshot :=
  match h.localAddr with
  | none => none
  | some a => h.store[a]?

/-- Heap-level `add(mutation)`: a changing application yields a fresh
object, appended to the store, whose address is delivered to the caller via
`onMutation` and kept as `this.LOCAL`. -/
def addH (h : HeapState) (m : Mutation) : HeapState × List EvH :=
  let oldVal := h.readLocal
  let newVal := m.applyTo oldVal
  if newVal = oldVal then
    ({ h with mutationsH := h.mutationsH ++ [m] }, [])
  else
    match newVal with
    | some d =>
      ({ h with mutationsH := h.mutationsH ++ [m],
                store := h.store ++ [d],
                localAddr := some h.store.length },
       [EvH.mutationAddr h.store.length])
    | none =>
      ({ h with mutationsH := h.mutationsH ++ [m], localAddr := none },
       [EvH.mutationNull])

/-- Heap-level `handleDocumentDeleted()`. -/
def handleDeletedH (h : HeapState) : HeapState × List EvH :=
  let evs := match h.localAddr with
    | some a => [EvH.deleteAddr a]
    | none => []
  ({ h with commitsH := [], mutationsH := [] }, evs)

/-- The value recomputed by heap-level `rebase()`. -/
def recomputeH (h : HeapState) : Snapshot :=
  Mutation.applyAll (h.commitsH.foldl (fun d c => c.apply d) h.EDGEh) h.mutationsH

/-- Heap-level `rebase()`: the recomputed snapshot is a fresh object, and
`oldLocal._rev = this.LOCAL._rev` overwrites the `rev` field of the object
`this.LOCAL` pointed to before — in place, at its old address — before the
deep comparison. -/
def rebaseH (h : HeapState) : HeapState × List EvH :=
  let p := if h.EDGEh = none then handleDeletedH h else (h, [])
  let h0 := p.1
  let oldAddr := h0.localAddr
  let newVal := recomputeH h0
  match newVal with
  | some n =>
    let newAddr := h0.store.length
    let store1 := h0.store ++ [n]
    let store2 := match oldAddr with
      | some a =>
        match store1[a]? with
        | some o => store1.set a { o with rev := n.rev }
        | none => store1
      | none => store1
    let oldVal2 := match oldAddr with
      | some a => store2[a]?
      | none => none
    ({ h0 with store := store2, localAddr := some newAddr },
     p.2 ++ (if some n ≠ oldVal2 then [EvH.rebaseAddr (some newAddr)] else []))
  | none =>
    ({ h0 with localAddr := none },
     p.2 ++ (if (none : Snapshot) ≠ h0.readLocal then [EvH.rebaseAddr none] else []))

/-- C10: `rebase()` mutates the previous optimistic-snapshot object in
place, overwriting its `_rev` with the recomputed snapshot's revision
before comparing — so when the revisions differ, the object stored at the
old address is no longer the object that was there before; and the object
`add` hands to the caller via `onMutation` is exactly the object the engine
retains as `this.LOCAL`, so a snapshot already delivered to the caller is
the one a later rebase modifies in place. -/
theorem rebase_mutates_delivered_snapshot :
    (∀ (h : HeapState) (a : Nat) (o n : SDoc),
      h.localAddr = some a → h.store[a]? = some o →
      h.EDGEh ≠ none → recomputeH h = some n →
      (rebaseH h).1.store[a]? = some { o with rev := n.rev } ∧
      (n.rev ≠ o.rev → (rebaseH h).1.store[a]? ≠ h.store[a]?)) ∧
    (∀ (h : HeapState) (m : Mutation) (d : SDoc),
      m.applyTo h.readLocal = some d → some d ≠ h.readLocal →
      (addH h m).2 = [EvH.mutationAddr h.store.length] ∧
      (addH h m).1.localAddr = some h.store.length ∧
      (addH h m).1.store[h.store.length]? = some d) := by
  constructor
  · intro h a o n hLoc hGet hE hRec
    have ha : a < h.store.length := by
      by_contra hcon
      rw [List.getElem?_eq_none (Nat.le_of_not_lt hcon)] at hGet
      exact Option.noConfusion hGet
    have ha1 : a < (h.store ++ [n]).length := by
      simp [List.length_append]
      omega
    have hGet1 : (h.store ++ [n])[a]? = some o := by
      rw [List.getElem?_append_left ha, hGet]
    have hstep : (rebaseH h).1.store
        = (h.store ++ [n]).set a { o with rev := n.rev } := by
      simp only [rebaseH, if_neg hE, hRec, hLoc, hGet1]
    constructor
    · rw [hstep]
      exact List.getElem?_set_eq_of_lt _ ha1
    · intro hrev
      rw [hstep, List.getElem?_set_eq_of_lt _ ha1, hGet]
      intro heq
      have hinj := Option.some.inj heq
      have hb : ({ o with rev := n.rev } : SDoc).rev = o.rev := by rw [hinj]
      simp at hb
      exact hrev hb
  · intro h m d happ hne
    simp [addH, happ, hne]

/-- The heap state right after a changing `add`: the caller holds address 0
(the delivered snapshot, revision `"r1"`), and the tracker's snapshot has
since advanced to revision `"r2"`. -/
def hDeliver : HeapState :=
  { store := [dEx], EDGEh := some dEx2, localAddr := some 0,
    commitsH := [], mutationsH := [] }

/-- A heap state about to run a changing `add`. -/
def hAdd : HeapState :=
  { store := [dEx], EDGEh := some dEx, localAddr := some 0,
    commitsH := [], mutationsH := [] }

/-- Witness for C10 at concrete heap states: `add` delivers the address it
retains as `this.LOCAL`, and the later rebase overwrites the delivered
object's `_rev` in place, changing the object at the delivered address. -/
theorem rebase_mutates_delivered_snapshot_witness :
    hDeliver.localAddr = some 0 ∧ hDeliver.store[0]? = some dEx ∧
    (rebaseH hDeliver).1.store[0]? = some { dEx with rev := "r2" } ∧
    (rebaseH hDeliver).1.store[0]? ≠ hDeliver.store[0]? ∧
    (addH hAdd (mSet 5 "loc1")).2 = [EvH.mutationAddr 1] ∧
    (addH hAdd (mSet 5 "loc1")).1.localAddr = some 1 := by
  have h1 := rebase_mutates_delivered_snapshot.1 hDeliver 0 dEx dEx2
    rfl rfl (by decide) rfl
  have h2 := rebase_mutates_delivered_snapshot.2 hAdd (mSet 5 "loc1")
    ⟨"loc1", [("count", 5)]⟩ rfl (by decide)
  exact ⟨rfl, rfl, h1.1, h1.2 (by decide), h2.1, h2.2.1⟩

end BufferedDoc
